import Mathlib

/-!
Shallow embedding of the utf8_converter repository
(src/utf8_converter_api.cpp) and verification of its specification.

Bytes are modelled as natural numbers (with side conditions b < 256 where
the C type unsigned char guarantees it); byte buffers are lists of bytes;
encoding names are strings exactly as in the source; the C double scorer
is embedded over the rationals (all intermediate quantities are small
integers, exactly representable, and rounding of the single final division
is monotone, so order and equality facts transfer).
-/

namespace Enc

/-- BomInfo mirrors the struct BomInfo { const char* name; size_t size; }. -/
structure BomInfo where
  name : String
  size : Nat
deriving DecidableEq, Repr

/-- detect_bom mirrors the source function: it checks, in source order,
UTF-8 (EF BB BF), UTF-16LE (FF FE), UTF-16BE (FE FF), UTF-32LE
(FF FE 00 00), UTF-32BE (00 00 FE FF). -/
def detect_bom (b : List Nat) : Option BomInfo :=
  if 3 ≤ b.length ∧ b.getD 0 0 = 0xEF ∧ b.getD 1 0 = 0xBB ∧ b.getD 2 0 = 0xBF then
    some ⟨"UTF-8", 3⟩
  else if 2 ≤ b.length ∧ b.getD 0 0 = 0xFF ∧ b.getD 1 0 = 0xFE then
    some ⟨"UTF-16LE", 2⟩
  else if 2 ≤ b.length ∧ b.getD 0 0 = 0xFE ∧ b.getD 1 0 = 0xFF then
    some ⟨"UTF-16BE", 2⟩
  else if 4 ≤ b.length ∧ b.getD 0 0 = 0xFF ∧ b.getD 1 0 = 0xFE ∧
      b.getD 2 0 = 0x00 ∧ b.getD 3 0 = 0x00 then
    some ⟨"UTF-32LE", 4⟩
  else if 4 ≤ b.length ∧ b.getD 0 0 = 0x00 ∧ b.getD 1 0 = 0x00 ∧
      b.getD 2 0 = 0xFE ∧ b.getD 3 0 = 0xFF then
    some ⟨"UTF-32BE", 4⟩
  else
    none

/-- chunks2 groups a byte list into complete 2-byte units, dropping a
trailing odd byte, exactly as the loops for (i = 0; i + 1 < n; i += 2). -/
def chunks2 : List Nat → List (Nat × Nat)
  | a :: b :: rest => (a, b) :: chunks2 rest
  | _ => []

/-- chunks4 groups a byte list into complete 4-byte units, dropping a
trailing partial unit, exactly as the loops for (i = 0; i + 3 < n; i += 4). -/
def chunks4 : List Nat → List (Nat × Nat × Nat × Nat)
  | a :: b :: c :: d :: rest => (a, b, c, d) :: chunks4 rest
  | _ => []

/-- looks_like_utf16_le mirrors the source heuristic: count zero bytes at
odd and at even offsets over complete 2-byte units. -/
def looks_like_utf16_le (b : List Nat) : Bool :=
  if b.length < 6 then false
  else
    let zeros_odd := (chunks2 b).countP (fun p => p.2 == 0)
    let zeros_even := (chunks2 b).countP (fun p => p.1 == 0)
    zeros_even * 3 < zeros_odd && b.length / 8 < zeros_odd

/-- looks_like_utf16_be mirrors the source heuristic for big-endian. -/
def looks_like_utf16_be (b : List Nat) : Bool :=
  if b.length < 6 then false
  else
    let zeros_even := (chunks2 b).countP (fun p => p.1 == 0)
    let zeros_odd := (chunks2 b).countP (fun p => p.2 == 0)
    zeros_odd * 3 < zeros_even && b.length / 8 < zeros_even

/-- looks_like_utf32_le mirrors the source heuristic: count 4-byte units
whose upper three bytes are all zero. -/
def looks_like_utf32_le (b : List Nat) : Bool :=
  if b.length < 8 then false
  else
    let zero_cnt := (chunks4 b).countP (fun q => q.2.1 == 0 && q.2.2.1 == 0 && q.2.2.2 == 0)
    b.length / 16 < zero_cnt

/-- looks_like_utf32_be mirrors the source heuristic: count 4-byte units
whose lower-address three bytes are all zero. -/
def looks_like_utf32_be (b : List Nat) : Bool :=
  if b.length < 8 then false
  else
    let zero_cnt := (chunks4 b).countP (fun q => q.1 == 0 && q.2.1 == 0 && q.2.2.1 == 0)
    b.length / 16 < zero_cnt

/-- CP1251_TABLE transcribed from the source (bytes 0x80..0xFF). -/
def CP1251_TABLE : List Nat :=
[0x0402,0x0403,0x201A,0x0453,0x201E,0x2026,0x2020,0x2021,0x20AC,0x2030,0x0409,0x2039,0x040A,0x040C,0x040B,0x040F,
 0x0452,0x2018,0x2019,0x201C,0x201D,0x2022,0x2013,0x2014,0x0000,0x2122,0x0459,0x203A,0x045A,0x045C,0x045B,0x045F,
 0x00A0,0x040E,0x045E,0x0408,0x00A4,0x0490,0x00A6,0x00A7,0x0401,0x00A9,0x0404,0x00AB,0x00AC,0x00AD,0x00AE,0x0407,
 0x00B0,0x00B1,0x0406,0x0456,0x0491,0x00B5,0x00B6,0x00B7,0x0451,0x2116,0x0454,0x00BB,0x0458,0x0405,0x0455,0x0457,
 0x0410,0x0411,0x0412,0x0413,0x0414,0x0415,0x0416,0x0417,0x0418,0x0419,0x041A,0x041B,0x041C,0x041D,0x041E,0x041F,
 0x0420,0x0421,0x0422,0x0423,0x0424,0x0425,0x0426,0x0427,0x0428,0x0429,0x042A,0x042B,0x042C,0x042D,0x042E,0x042F,
 0x0430,0x0431,0x0432,0x0433,0x0434,0x0435,0x0436,0x0437,0x0438,0x0439,0x043A,0x043B,0x043C,0x043D,0x043E,0x043F,
 0x0440,0x0441,0x0442,0x0443,0x0444,0x0445,0x0446,0x0447,0x0448,0x0449,0x044A,0x044B,0x044C,0x044D,0x044E,0x044F]

/-- KOI8R_TABLE transcribed from the source (bytes 0x80..0xFF). -/
def KOI8R_TABLE : List Nat :=
[0x2500,0x2502,0x250C,0x2510,0x2514,0x2518,0x251C,0x2524,0x252C,0x2534,0x253C,0x2580,0x2584,0x2588,0x258C,0x2590,
 0x2591,0x2592,0x2593,0x2320,0x25A0,0x2219,0x221A,0x2248,0x2264,0x2265,0x00A0,0x2321,0x00B0,0x00B2,0x00B7,0x00F7,
 0x2550,0x2551,0x2552,0x0451,0x2553,0x2554,0x2555,0x2556,0x2557,0x2558,0x2559,0x255A,0x255B,0x255C,0x255D,0x255E,
 0x255F,0x2560,0x2561,0x0401,0x2562,0x2563,0x2564,0x2565,0x2566,0x2567,0x2568,0x2569,0x256A,0x256B,0x256C,0x00A9,
 0x044E,0x0430,0x0431,0x0446,0x0434,0x0435,0x0444,0x0433,0x0445,0x0438,0x0439,0x043A,0x043B,0x043C,0x043D,0x043E,
 0x043F,0x044F,0x0440,0x0441,0x0442,0x0443,0x0436,0x0432,0x044C,0x044B,0x0437,0x0448,0x044D,0x0449,0x0447,0x044A,
 0x042E,0x0410,0x0411,0x0426,0x0414,0x0415,0x0424,0x0413,0x0425,0x0418,0x0419,0x041A,0x041B,0x041C,0x041D,0x041E,
 0x041F,0x042F,0x0420,0x0421,0x0422,0x0423,0x0416,0x0412,0x042C,0x042B,0x0417,0x0428,0x042D,0x0429,0x0427,0x042A]

/-- ISO8859_5_TABLE transcribed from the source (bytes 0x80..0xFF). -/
def ISO8859_5_TABLE : List Nat :=
[0x0080,0x0081,0x0082,0x0083,0x0084,0x0085,0x0086,0x0087,0x0088,0x0089,0x008A,0x008B,0x008C,0x008D,0x008E,0x008F,
 0x0090,0x0091,0x0092,0x0093,0x0094,0x0095,0x0096,0x0097,0x0098,0x0099,0x009A,0x009B,0x009C,0x009D,0x009E,0x009F,
 0x00A0,0x0401,0x0402,0x0403,0x0404,0x0405,0x0406,0x0407,0x0408,0x0409,0x040A,0x040B,0x040C,0x00AD,0x040E,0x040F,
 0x0410,0x0411,0x0412,0x0413,0x0414,0x0415,0x0416,0x0417,0x0418,0x0419,0x041A,0x041B,0x041C,0x041D,0x041E,0x041F,
 0x0420,0x0421,0x0422,0x0423,0x0424,0x0425,0x0426,0x0427,0x0428,0x0429,0x042A,0x042B,0x042C,0x042D,0x042E,0x042F,
 0x0430,0x0431,0x0432,0x0433,0x0434,0x0435,0x0436,0x0437,0x0438,0x0439,0x043A,0x043B,0x043C,0x043D,0x043E,0x043F,
 0x0440,0x0441,0x0442,0x0443,0x0444,0x0445,0x0446,0x0447,0x0448,0x0449,0x044A,0x044B,0x044C,0x044D,0x044E,0x044F,
 0x2116,0x0451,0x0452,0x0453,0x0454,0x0455,0x0456,0x0457,0x0458,0x0459,0x045A,0x045B,0x045C,0x00A7,0x045E,0x045F]

/-- MACCYR_TABLE transcribed from the source (bytes 0x80..0xFF). -/
def MACCYR_TABLE : List Nat :=
[0x0410,0x0411,0x0412,0x0413,0x0414,0x0415,0x0416,0x0417,0x0418,0x0419,0x041A,0x041B,0x041C,0x041D,0x041E,0x041F,
 0x0420,0x0421,0x0422,0x0423,0x0424,0x0425,0x0426,0x0427,0x0428,0x0429,0x042A,0x042B,0x042C,0x042D,0x042E,0x042F,
 0x2020,0x00B0,0x0490,0x00A3,0x00A7,0x2022,0x00B6,0x0406,0x00AE,0x00A9,0x2122,0x0402,0x0452,0x2260,0x0403,0x0453,
 0x221E,0x00B1,0x2264,0x2265,0x00A5,0x0491,0x0408,0x0404,0x0407,0x0409,0x040A,0x040C,0x0459,0x045A,0x045C,0x045B,
 0x045F,0x00A4,0x00AB,0x00BB,0x2591,0x2592,0x2593,0x2502,0x2524,0x00A0,0x044E,0x0430,0x0431,0x0446,0x0434,0x0435,
 0x0444,0x0433,0x0445,0x0438,0x0439,0x043A,0x043B,0x043C,0x043D,0x043E,0x043F,0x044F,0x0440,0x0441,0x0442,0x0443,
 0x0436,0x0432,0x044C,0x044B,0x0437,0x0448,0x044D,0x0449,0x0447,0x044A,0x042E,0x0410,0x0411,0x0426,0x0414,0x0415,
 0x0424,0x0413,0x0425,0x0418,0x0419,0x041A,0x041B,0x041C,0x041D,0x041E,0x041F,0x042F,0x0420,0x0421,0x0422,0x0423]

/-- SingleByte mirrors enum class SingleByte. -/
inductive SingleByte where
  | CP1251
  | KOI8R
  | ISO8859_5
  | MACCYR
deriving DecidableEq, Repr

/-- tableOf selects the table for an encoding, as the switch in
decode_single_byte does. -/
def tableOf : SingleByte → List Nat
  | .CP1251 => CP1251_TABLE
  | .KOI8R => KOI8R_TABLE
  | .ISO8859_5 => ISO8859_5_TABLE
  | .MACCYR => MACCYR_TABLE

/-- decode_single_byte_one embeds one iteration of the decode_single_byte
loop: bytes below 0x80 pass through; otherwise the table is consulted at
byte - 0x80 (the default 0xFFFD mirrors the initialisation uint16_t cp =
0xFFFD) and a zero entry becomes the replacement scalar. -/
def decode_single_byte_one (t : SingleByte) (b : Nat) : Nat :=
  if b < 0x80 then b
  else
    let cp := (tableOf t).getD (b - 0x80) 0xFFFD
    if cp = 0x0000 then 0xFFFD else cp

/-- decode_single_byte mirrors the source loop over all bytes. -/
def decode_single_byte (l : List Nat) (t : SingleByte) : List Nat :=
  l.map (decode_single_byte_one t)

/-- utf16Units composes 16-bit units from complete byte pairs, mirroring
u = be ? p[i] << 8 | p[i+1] : p[i+1] << 8 | p[i] over the 2-byte chunks
(the trailing odd byte is dropped by chunks2, as by n--). -/
def utf16Units (be : Bool) (l : List Nat) : List Nat :=
  (chunks2 l).map (fun p => if be then (p.1 <<< 8) ||| p.2 else (p.2 <<< 8) ||| p.1)

/-- decode_utf16_units embeds the unit-consuming loop of decode_utf16.
A high surrogate with no following unit emits 0xFFFD and stops (break);
a high surrogate whose following unit is not a low surrogate emits one
0xFFFD and skips both units (the i += 2 inside the branch plus the loop
increment advance past the lookahead unit as well); a lone low surrogate
emits 0xFFFD; a valid pair emits the combined scalar; anything else
passes through. -/
def decode_utf16_units : List Nat → List Nat
  | [] => []
  | u :: rest =>
    if 0xD800 ≤ u ∧ u ≤ 0xDBFF then
      match rest with
      | [] => [0xFFFD]
      | v :: rest2 =>
        if 0xDC00 ≤ v ∧ v ≤ 0xDFFF then
          (0x10000 + (((u - 0xD800) <<< 10) ||| (v - 0xDC00))) :: decode_utf16_units rest2
        else
          0xFFFD :: decode_utf16_units rest2
    else if 0xDC00 ≤ u ∧ u ≤ 0xDFFF then
      0xFFFD :: decode_utf16_units rest
    else
      u :: decode_utf16_units rest

/-- decode_utf16 mirrors the source function on a byte list. -/
def decode_utf16 (be : Bool) (l : List Nat) : List Nat :=
  decode_utf16_units (utf16Units be l)

/-- decode_utf32 mirrors the source function: compose each complete 4-byte
unit per endianness and replace out-of-range or surrogate scalars. -/
def decode_utf32 (be : Bool) (l : List Nat) : List Nat :=
  (chunks4 l).map (fun q =>
    let cp :=
      if be then (q.1 <<< 24) ||| (q.2.1 <<< 16) ||| (q.2.2.1 <<< 8) ||| q.2.2.2
      else (q.2.2.2 <<< 24) ||| (q.2.2.1 <<< 16) ||| (q.2.1 <<< 8) ||| q.1
    if 0x10FFFF < cp ∨ (0xD800 ≤ cp ∧ cp ≤ 0xDFFF) then 0xFFFD else cp)

/-- append_utf8 mirrors the source encoder for one scalar, with the same
length thresholds and the same shift/mask byte constructions. -/
def append_utf8 (cp : Nat) : List Nat :=
  if cp ≤ 0x7F then [cp]
  else if cp ≤ 0x7FF then
    [0xC0 ||| (cp >>> 6), 0x80 ||| (cp &&& 0x3F)]
  else if cp ≤ 0xFFFF then
    [0xE0 ||| (cp >>> 12), 0x80 ||| ((cp >>> 6) &&& 0x3F), 0x80 ||| (cp &&& 0x3F)]
  else
    [0xF0 ||| (cp >>> 18), 0x80 ||| ((cp >>> 12) &&& 0x3F),
     0x80 ||| ((cp >>> 6) &&& 0x3F), 0x80 ||| (cp &&& 0x3F)]

/-- u32_to_utf8 mirrors the source: encode each scalar in order. -/
def u32_to_utf8 (u : List Nat) : List Nat :=
  (u.map append_utf8).flatten

/-- is_valid_utf8 mirrors the source validator loop; list pattern matching
replaces the explicit index bound checks i + extra >= n. -/
def is_valid_utf8 : List Nat → Bool
  | [] => true
  | c :: rest =>
    if c ≤ 0x7F then is_valid_utf8 rest
    else if c &&& 0xE0 = 0xC0 then
      if c < 0xC2 then false
      else
        match rest with
        | c1 :: r => if c1 &&& 0xC0 = 0x80 then is_valid_utf8 r else false
        | _ => false
    else if c &&& 0xF0 = 0xE0 then
      match rest with
      | c1 :: c2 :: r =>
        if c1 &&& 0xC0 = 0x80 ∧ c2 &&& 0xC0 = 0x80 then
          if c = 0xE0 ∧ c1 < 0xA0 then false
          else if c = 0xED ∧ 0xA0 ≤ c1 then false
          else is_valid_utf8 r
        else false
      | _ => false
    else if c &&& 0xF8 = 0xF0 then
      if 0xF4 < c then false
      else
        match rest with
        | c1 :: c2 :: c3 :: r =>
          if c1 &&& 0xC0 = 0x80 ∧ c2 &&& 0xC0 = 0x80 ∧ c3 &&& 0xC0 = 0x80 then
            if c = 0xF0 ∧ c1 < 0x90 then false
            else if c = 0xF4 ∧ 0x90 ≤ c1 then false
            else is_valid_utf8 r
          else false
        | _ => false
    else false

/-- score_step embeds one iteration of the score_u32_text loop, acting on
the (cyr, good, bad) accumulator exactly as the source branch chain does
(including the unreachable second disjunct of the last branch). -/
def score_step (acc : Nat × Nat × Nat) (cp : Nat) : Nat × Nat × Nat :=
  if cp = 0x0000 then (acc.1, acc.2.1, acc.2.2 + 3)
  else if cp < 0x20 ∧ cp ≠ 0x09 ∧ cp ≠ 0x0A ∧ cp ≠ 0x0D then (acc.1, acc.2.1, acc.2.2 + 2)
  else if 0x0400 ≤ cp ∧ cp ≤ 0x04FF then (acc.1 + 1, acc.2.1 + 1, acc.2.2)
  else if (0x0020 ≤ cp ∧ cp ≤ 0x007E) ∨ cp = 0x00A0 ∨ cp = 0x2116 then
    (acc.1, acc.2.1 + 1, acc.2.2)
  else if cp = 0xFFFD then (acc.1, acc.2.1, acc.2.2 + 2)
  else if (0x2000 ≤ cp ∧ cp ≤ 0x206F) ∨ (0x20 ≤ cp ∧ cp ≤ 0x7E) then
    (acc.1, acc.2.1 + 1, acc.2.2)
  else acc

/-- score_u32_text mirrors the source scorer; the C double arithmetic is
embedded over the rationals. -/
def score_u32_text (u : List Nat) : ℚ :=
  if u = [] then 0
  else
    let acc := u.foldl score_step (0, 0, 0)
    ((acc.2.1 : ℚ) - (acc.2.2 : ℚ) + (3 / 2) * (acc.1 : ℚ)) / (u.length : ℚ)

/-- cands mirrors the candidate array in DetectEncodingFromBuffer. -/
def cands : List (String × SingleByte) :=
  [("WINDOWS-1251", .CP1251), ("KOI8-R", .KOI8R),
   ("ISO-8859-5", .ISO8859_5), ("MACCYRILLIC", .MACCYR)]

/-- DetectEncodingFromBuffer mirrors the source: empty, BOM, the four
heuristics in order, whole-buffer UTF-8 validation, then the best-scoring
single-byte candidate (strict improvement over bestScore = -1e9, first
candidate wins ties, default name WINDOWS-1251). -/
def DetectEncodingFromBuffer (bytes : List Nat) : String :=
  if bytes = [] then "UTF-8"
  else
    match detect_bom bytes with
    | some bom => bom.name
    | none =>
      if looks_like_utf32_le bytes then "UTF-32LE"
      else if looks_like_utf32_be bytes then "UTF-32BE"
      else if looks_like_utf16_le bytes then "UTF-16LE"
      else if looks_like_utf16_be bytes then "UTF-16BE"
      else if is_valid_utf8 bytes then "UTF-8"
      else
        (cands.foldl (fun best c =>
          let s := score_u32_text (decode_single_byte bytes c.2)
          if best.1 < s then (s, c.1) else best)
          ((-1000000000 : ℚ), "WINDOWS-1251")).2

/-- convert_decode embeds the decode dispatch of ConvertBufferToUtf8: the
chain of string comparisons on encname applied to the remainder p (the
buffer past any BOM), returning the finally reported name and the UTF-8
output, including the WINDOWS-1251 fallback inside the UTF-8 arm. -/
def convert_decode (encname : String) (p : List Nat) : String × List Nat :=
  if encname = "UTF-8" then
    if is_valid_utf8 p then ("UTF-8", p)
    else ("WINDOWS-1251", u32_to_utf8 (decode_single_byte p .CP1251))
  else if encname = "UTF-16LE" then ("UTF-16LE", u32_to_utf8 (decode_utf16 false p))
  else if encname = "UTF-16BE" then ("UTF-16BE", u32_to_utf8 (decode_utf16 true p))
  else if encname = "UTF-32LE" then ("UTF-32LE", u32_to_utf8 (decode_utf32 false p))
  else if encname = "UTF-32BE" then ("UTF-32BE", u32_to_utf8 (decode_utf32 true p))
  else if encname = "WINDOWS-1251" then
    ("WINDOWS-1251", u32_to_utf8 (decode_single_byte p .CP1251))
  else if encname = "KOI8-R" then ("KOI8-R", u32_to_utf8 (decode_single_byte p .KOI8R))
  else if encname = "ISO-8859-5" then
    ("ISO-8859-5", u32_to_utf8 (decode_single_byte p .ISO8859_5))
  else if encname = "MACCYRILLIC" then
    ("MACCYRILLIC", u32_to_utf8 (decode_single_byte p .MACCYR))
  else ("WINDOWS-1251", u32_to_utf8 (decode_single_byte p .CP1251))

/-- ConvertBufferToUtf8 mirrors the source conversion orchestrator: a BOM
fixes the initial name and the offset (its size); otherwise detection runs
on the whole buffer and the offset is 0 (drop 0 leaves the buffer intact);
the result pairs the finally reported name with the UTF-8 output bytes. -/
def ConvertBufferToUtf8 (bytes : List Nat) : String × List Nat :=
  if bytes = [] then ("UTF-8", [])
  else
    match detect_bom bytes with
    | some bom => convert_decode bom.name (bytes.drop bom.size)
    | none => convert_decode (DetectEncodingFromBuffer bytes) (bytes.drop 0)

/-- FsState models the two filesystem paths touched by the replacement
step of ConvertFileToUtf8Inplace: the target path p and the sibling
temporary file; each holds the bytes of the file there, or none. -/
structure FsState where
  target : Option (List Nat)
  temp : Option (List Nat)
deriving DecidableEq, Repr

/-- FsOp names the filesystem calls issued by the replacement step. -/
inductive FsOp where
  | renameTmpToTarget
  | removeTarget
  | removeTemp
deriving DecidableEq, Repr

/-- ReplaceOutcome records whether the step threw, the final filesystem
state, and the trace of filesystem calls it issued in order. -/
structure ReplaceOutcome where
  threw : Bool
  final : FsState
  trace : List FsOp
deriving DecidableEq, Repr

/-- replace_step embeds step 3 of ConvertFileToUtf8Inplace (the code after
the temporary file has been written). The two rename outcomes are supplied
by an oracle (rename1, rename2), since rename failure is environmental; a
successful rename moves the temporary file onto the target; fs::remove
deletes the named file (the spec models remove(path) as a plain primitive
with no failure result). A failed rename changes no file. -/
def replace_step (rename1 rename2 : Bool) (st : FsState) : ReplaceOutcome :=
  if rename1 then
    { threw := false, final := { target := st.temp, temp := none },
      trace := [.renameTmpToTarget] }
  else
    let st1 : FsState := { target := none, temp := st.temp }
    if rename2 then
      { threw := false, final := { target := st1.temp, temp := none },
        trace := [.renameTmpToTarget, .removeTarget, .renameTmpToTarget] }
    else
      { threw := true, final := { target := none, temp := none },
        trace := [.renameTmpToTarget, .removeTarget, .renameTmpToTarget, .removeTemp] }

/-!
Specification-side definitions, written from the wording of the claims
and of spec.md, to be compared with the source-derived functions above.
-/

/-- claim_contrib gives, per scalar, the (good, bad, cyrillic) increments
exactly as the scoring claim lists them: NUL adds 3 to bad; C0 controls
other than TAB/LF/CR add 2 to bad; the Cyrillic block 0x0400-0x04FF adds
1 to good and 1 to cyrillic; printable ASCII, NBSP and the numero sign add
1 to good; the replacement scalar adds 2 to bad; the general punctuation
block 0x2000-0x206F adds 1 to good; everything else contributes nothing. -/
def claim_contrib (cp : Nat) : Nat × Nat × Nat :=
  if cp = 0x0000 then (0, 3, 0)
  else if cp ≤ 0x1F ∧ cp ≠ 0x09 ∧ cp ≠ 0x0A ∧ cp ≠ 0x0D then (0, 2, 0)
  else if 0x0400 ≤ cp ∧ cp ≤ 0x04FF then (1, 0, 1)
  else if (0x0020 ≤ cp ∧ cp ≤ 0x007E) ∨ cp = 0x00A0 ∨ cp = 0x2116 then (1, 0, 0)
  else if cp = 0xFFFD then (0, 2, 0)
  else if 0x2000 ≤ cp ∧ cp ≤ 0x206F then (1, 0, 0)
  else (0, 0, 0)

/-- goodSum totals the per-scalar good contributions of the claim. -/
def goodSum (u : List Nat) : Nat := (u.map (fun cp => (claim_contrib cp).1)).sum

/-- badSum totals the per-scalar bad contributions of the claim. -/
def badSum (u : List Nat) : Nat := (u.map (fun cp => (claim_contrib cp).2.1)).sum

/-- cyrSum totals the per-scalar cyrillic contributions of the claim. -/
def cyrSum (u : List Nat) : Nat := (u.map (fun cp => (claim_contrib cp).2.2)).sum

/-- isContByte states that a byte matches the continuation pattern
10xxxxxx, that is, lies in 0x80..0xBF. -/
def isContByte (b : Nat) : Prop := 0x80 ≤ b ∧ b ≤ 0xBF

/-- Utf8Chunks is the UTF-8 grammar of the validator claim: a buffer is a
sequence of well-formed code-point encodings; lead bytes 0xC0/0xC1 and
lead bytes above 0xF4 are excluded by the ranges, continuation bytes match
10xxxxxx, and the 0xE0/0xED/0xF0/0xF4 second-byte restrictions apply.
A truncated trailing sequence matches no constructor. -/
inductive Utf8Chunks : List Nat → Prop where
  | nil : Utf8Chunks []
  | one (b : Nat) (r : List Nat) : b ≤ 0x7F → Utf8Chunks r → Utf8Chunks (b :: r)
  | two (b c1 : Nat) (r : List Nat) : 0xC2 ≤ b → b ≤ 0xDF → isContByte c1 →
      Utf8Chunks r → Utf8Chunks (b :: c1 :: r)
  | three (b c1 c2 : Nat) (r : List Nat) : 0xE0 ≤ b → b ≤ 0xEF →
      isContByte c1 → isContByte c2 →
      (b = 0xE0 → 0xA0 ≤ c1) → (b = 0xED → c1 < 0xA0) →
      Utf8Chunks r → Utf8Chunks (b :: c1 :: c2 :: r)
  | four (b c1 c2 c3 : Nat) (r : List Nat) : 0xF0 ≤ b → b ≤ 0xF4 →
      isContByte c1 → isContByte c2 → isContByte c3 →
      (b = 0xF0 → 0x90 ≤ c1) → (b = 0xF4 → c1 < 0x90) →
      Utf8Chunks r → Utf8Chunks (b :: c1 :: c2 :: c3 :: r)

/-- IsScalar states that a value is a Unicode scalar value: at most
0x10FFFF and not a surrogate. -/
def IsScalar (cp : Nat) : Prop := cp ≤ 0x10FFFF ∧ ¬(0xD800 ≤ cp ∧ cp ≤ 0xDFFF)

instance (cp : Nat) : Decidable (IsScalar cp) := by
  unfold IsScalar
  infer_instance

/-!
Helper lemmas.
-/

/-- score_step adds exactly the per-scalar contributions of the claim to
each component of the accumulator (the final branch of the source, whose
second disjunct re-tests printable ASCII, is unreachable because printable
ASCII was already consumed by the earlier branch). -/
lemma score_step_eq (acc : Nat × Nat × Nat) (cp : Nat) :
    score_step acc cp =
      (acc.1 + (claim_contrib cp).2.2, acc.2.1 + (claim_contrib cp).1,
       acc.2.2 + (claim_contrib cp).2.1) := by
  unfold score_step claim_contrib
  split_ifs <;> simp <;> omega

lemma goodSum_cons (cp : Nat) (u : List Nat) :
    goodSum (cp :: u) = (claim_contrib cp).1 + goodSum u := by
  simp [goodSum]

lemma badSum_cons (cp : Nat) (u : List Nat) :
    badSum (cp :: u) = (claim_contrib cp).2.1 + badSum u := by
  simp [badSum]

lemma cyrSum_cons (cp : Nat) (u : List Nat) :
    cyrSum (cp :: u) = (claim_contrib cp).2.2 + cyrSum u := by
  simp [cyrSum]

/-- foldl of score_step computes the three claim sums. -/
lemma foldl_score_step (u : List Nat) : ∀ a b c : Nat,
    u.foldl score_step (a, b, c) = (a + cyrSum u, b + goodSum u, c + badSum u) := by
  induction u with
  | nil => intro a b c; simp [goodSum, badSum, cyrSum]
  | cons cp u ih =>
    intro a b c
    rw [List.foldl_cons, score_step_eq, ih, goodSum_cons, badSum_cons, cyrSum_cons]
    simp only [Prod.mk.injEq]
    omega

/-- score_u32_text computes the claim formula (for the empty sequence both
sides are 0, the right one by the division-by-zero convention of ℚ). -/
lemma score_eq_claim (u : List Nat) :
    score_u32_text u =
      ((goodSum u : ℚ) - (badSum u : ℚ) + (3 / 2) * (cyrSum u : ℚ)) / (u.length : ℚ) := by
  unfold score_u32_text
  by_cases h : u = []
  · subst h; simp [goodSum, badSum, cyrSum]
  · rw [if_neg h, foldl_score_step]
    simp

lemma goodSum_append (s t : List Nat) : goodSum (s ++ t) = goodSum s + goodSum t := by
  simp [goodSum]

lemma badSum_append (s t : List Nat) : badSum (s ++ t) = badSum s + badSum t := by
  simp [badSum]

lemma cyrSum_append (s t : List Nat) : cyrSum (s ++ t) = cyrSum s + cyrSum t := by
  simp [cyrSum]

/-- claim_contrib on a Cyrillic-block scalar. -/
lemma contrib_cyrillic (cp : Nat) (h1 : 0x0400 ≤ cp) (h2 : cp ≤ 0x04FF) :
    claim_contrib cp = (1, 0, 1) := by
  unfold claim_contrib
  rw [if_neg (by omega), if_neg (by omega), if_pos ⟨h1, h2⟩]

/-- Sums over a sequence of Cyrillic-block scalars. -/
lemma sums_all_cyrillic (t : List Nat) (h : ∀ cp ∈ t, 0x0400 ≤ cp ∧ cp ≤ 0x04FF) :
    goodSum t = t.length ∧ badSum t = 0 ∧ cyrSum t = t.length := by
  induction t with
  | nil => simp [goodSum, badSum, cyrSum]
  | cons cp t ih =>
    have hcp := h cp (by simp)
    have iht := ih (fun x hx => h x (by simp [hx]))
    rw [goodSum_cons, badSum_cons, cyrSum_cons, contrib_cyrillic cp hcp.1 hcp.2]
    simp only [List.length_cons]
    omega

/-- Per-scalar contribution bound: the score numerator gains at most 5/2
per scalar (stated over ℕ with the denominator cleared). -/
lemma contrib_bound (cp : Nat) :
    2 * (claim_contrib cp).1 + 3 * (claim_contrib cp).2.2 ≤
      5 + 2 * (claim_contrib cp).2.1 := by
  unfold claim_contrib
  split_ifs <;> simp

/-- Summed contribution bound. -/
lemma sums_bound (u : List Nat) :
    2 * goodSum u + 3 * cyrSum u ≤ 5 * u.length + 2 * badSum u := by
  induction u with
  | nil => simp [goodSum, badSum, cyrSum]
  | cons cp u ih =>
    have h := contrib_bound cp
    rw [goodSum_cons, badSum_cons, cyrSum_cons]
    simp only [List.length_cons]
    omega

/-- ConvertBufferToUtf8 on a buffer with a recognized BOM. -/
lemma convertBuffer_of_bom (bytes : List Nat) (bom : BomInfo)
    (h : detect_bom bytes = some bom) :
    ConvertBufferToUtf8 bytes = convert_decode bom.name (bytes.drop bom.size) := by
  have hne : bytes ≠ [] := by
    intro he
    subst he
    simp [detect_bom] at h
  unfold ConvertBufferToUtf8
  rw [if_neg hne, h]

/-- ConvertBufferToUtf8 on a non-empty buffer without a BOM. -/
lemma convertBuffer_of_no_bom (bytes : List Nat) (hne : bytes ≠ [])
    (h : detect_bom bytes = none) :
    ConvertBufferToUtf8 bytes = convert_decode (DetectEncodingFromBuffer bytes) bytes := by
  unfold ConvertBufferToUtf8
  rw [if_neg hne, h, List.drop_zero]

/-!
Claim theorems.
-/

/-- C1: the claim states that a buffer beginning FF FE 00 00 is reported
as UTF-32LE with prefix length 4 because the 4-byte pattern is tested
before the 2-byte UTF-16LE pattern. The source tests UTF-16LE first, so
every such buffer is reported as UTF-16LE with prefix length 2; this
theorem evaluates the code on the failing inputs. The spec states the
detector MUST test the 4-byte pattern first, so this is a bug in the code
rather than in the claim. -/
theorem claim1_detect_bom_utf32le_misreported (rest : List Nat) :
    detect_bom (0xFF :: 0xFE :: 0x00 :: 0x00 :: rest) = some ⟨"UTF-16LE", 2⟩
    ∧ DetectEncodingFromBuffer (0xFF :: 0xFE :: 0x00 :: 0x00 :: rest) = "UTF-16LE" := by
  have h : detect_bom (0xFF :: 0xFE :: 0x00 :: 0x00 :: rest) = some ⟨"UTF-16LE", 2⟩ := by
    simp [detect_bom]
  refine ⟨h, ?_⟩
  unfold DetectEncodingFromBuffer
  rw [if_neg (by simp), h]

/-- C5: the plausibility score equals (good - bad + 1.5 cyrillic) divided
by the sequence length, with the per-scalar contributions listed by the
claim (formalised by claim_contrib and its sums), and the empty sequence
scores exactly 0. -/
theorem claim5_score_formula :
    (∀ u : List Nat,
      score_u32_text u =
        ((goodSum u : ℚ) - (badSum u : ℚ) + (3 / 2) * (cyrSum u : ℚ)) / (u.length : ℚ))
    ∧ score_u32_text [] = 0 := by
  refine ⟨score_eq_claim, ?_⟩
  simp [score_u32_text]

/-- C6: appending a non-empty sequence of Cyrillic-block scalars never
decreases the plausibility score. -/
theorem claim6_score_monotone_cyrillic (s t : List Nat) (ht : t ≠ [])
    (hcyr : ∀ cp ∈ t, 0x0400 ≤ cp ∧ cp ≤ 0x04FF) :
    score_u32_text s ≤ score_u32_text (s ++ t) := by
  obtain ⟨hg, hb, hc⟩ := sums_all_cyrillic t hcyr
  have hm : 0 < t.length := List.length_pos.2 ht
  rw [score_eq_claim, score_eq_claim, goodSum_append, badSum_append, cyrSum_append,
    hg, hb, hc, List.length_append]
  rcases Nat.eq_zero_or_pos s.length with hn | hn
  · rw [hn]
    have hs : s = [] := List.length_eq_zero.1 hn
    subst hs
    simp only [goodSum, badSum, cyrSum, List.map_nil, List.sum_nil]
    push_cast
    rw [div_zero]  -- the claim formula at the empty prefix is 0 / 0 = 0
    apply div_nonneg
    · have hm0 : (0 : ℚ) ≤ (t.length : ℚ) := by positivity
      nlinarith
    · positivity
  · have hbound := sums_bound s
    have hn0 : (0 : ℚ) < (s.length : ℚ) := by exact_mod_cast hn
    have hm0 : (0 : ℚ) < (t.length : ℚ) := by exact_mod_cast hm
    rw [div_le_div_iff₀ hn0 (by positivity)]
    have hboundQ : 2 * (goodSum s : ℚ) + 3 * (cyrSum s : ℚ) ≤
        5 * (s.length : ℚ) + 2 * (badSum s : ℚ) := by exact_mod_cast hbound
    push_cast
    nlinarith [mul_le_mul_of_nonneg_right hboundQ (le_of_lt hm0)]

/-- C6 witness: a concrete instance of the monotonicity theorem. -/
theorem claim6_witness :
    ([0x0410] ≠ ([] : List Nat))
    ∧ score_u32_text [0x41] ≤ score_u32_text ([0x41] ++ [0x0410]) :=
  ⟨by decide, claim6_score_monotone_cyrillic [0x41] [0x0410] (by decide) (by decide)⟩

/-- C8: the single-byte decoder passes bytes below 0x80 through, looks up
table[b - 0x80] for bytes at or above 0x80 mapping a zero entry to the
replacement scalar, and never emits the scalar 0 for a byte at or above
0x80. -/
theorem claim8_single_byte_decoder (b : Nat) (t : SingleByte) (hb : b < 256) :
    (b < 0x80 → decode_single_byte_one t b = b)
    ∧ (0x80 ≤ b → decode_single_byte_one t b =
        (if (tableOf t).getD (b - 0x80) 0xFFFD = 0 then 0xFFFD
         else (tableOf t).getD (b - 0x80) 0xFFFD))
    ∧ (0x80 ≤ b → decode_single_byte_one t b ≠ 0) := by
  unfold decode_single_byte_one
  refine ⟨fun h => by rw [if_pos h], fun h => by rw [if_neg (by omega)], fun h => ?_⟩
  rw [if_neg (by omega)]
  show (if (tableOf t).getD (b - 0x80) 0xFFFD = 0 then 0xFFFD
        else (tableOf t).getD (b - 0x80) 0xFFFD) ≠ 0
  split_ifs with h0
  · decide
  · exact h0

/-- C8 witness: byte 0x98 is the undefined WINDOWS-1251 cell (table value
0), and decodes to the replacement scalar, not to 0. -/
theorem claim8_witness :
    (0x98 < 256)
    ∧ ((0x98 < 0x80 → decode_single_byte_one .CP1251 0x98 = 0x98)
      ∧ (0x80 ≤ 0x98 → decode_single_byte_one .CP1251 0x98 =
          (if (tableOf .CP1251).getD (0x98 - 0x80) 0xFFFD = 0 then 0xFFFD
           else (tableOf .CP1251).getD (0x98 - 0x80) 0xFFFD))
      ∧ (0x80 ≤ 0x98 → decode_single_byte_one .CP1251 0x98 ≠ 0)) :=
  ⟨by decide, claim8_single_byte_decoder 0x98 .CP1251 (by decide)⟩

/-- C9: in the modelled replacement step, a failed first rename is
followed by deleting the original and exactly one retry; a failed retry
deletes the temporary file, throws, and leaves no file at the target path
and no temporary file; a successful first rename never deletes the
original. -/
theorem claim9_replace_retry_policy (st : FsState) (r2 : Bool) :
    ((replace_step false r2 st).trace.count .renameTmpToTarget = 2
      ∧ (replace_step false r2 st).trace.count .removeTarget = 1)
    ∧ ((replace_step false false st).threw = true
      ∧ (replace_step false false st).final.target = none
      ∧ (replace_step false false st).final.temp = none)
    ∧ ((replace_step true r2 st).trace.count .removeTarget = 0
      ∧ (replace_step true r2 st).threw = false) := by
  refine ⟨⟨?_, ?_⟩, ⟨?_, ?_, ?_⟩, ?_, ?_⟩ <;> cases r2 <;> rfl

/-- C2 counterexample: a buffer with a UTF-8 BOM followed by a byte that
is not valid UTF-8.  The claim states the reported name is still UTF-8;
the code re-validates the remainder regardless of where the UTF-8 decision
came from, so it reports WINDOWS-1251 instead. -/
theorem claim2_counterexample :
    detect_bom [0xEF, 0xBB, 0xBF, 0xFF] = some ⟨"UTF-8", 3⟩
    ∧ (ConvertBufferToUtf8 [0xEF, 0xBB, 0xBF, 0xFF]).1 ≠ "UTF-8"
    ∧ (ConvertBufferToUtf8 [0xEF, 0xBB, 0xBF, 0xFF]).1 = "WINDOWS-1251" := by
  refine ⟨by decide, ?_, ?_⟩ <;> decide

/-- C2 amended: with a recognized BOM the conversion reports the BOM name
and decodes the remainder under that encoding, except that a UTF-8 BOM
whose remainder fails validation falls back to WINDOWS-1251 (both in the
reported name and in the decoding). -/
theorem claim2_amended_bom_handling (bytes : List Nat) (bom : BomInfo)
    (h : detect_bom bytes = some bom) :
    (bom.name = "UTF-8" → is_valid_utf8 (bytes.drop bom.size) = true →
      ConvertBufferToUtf8 bytes = ("UTF-8", bytes.drop bom.size))
    ∧ (bom.name = "UTF-8" → is_valid_utf8 (bytes.drop bom.size) = false →
      ConvertBufferToUtf8 bytes =
        ("WINDOWS-1251", u32_to_utf8 (decode_single_byte (bytes.drop bom.size) .CP1251)))
    ∧ (bom.name = "UTF-16LE" → ConvertBufferToUtf8 bytes =
        ("UTF-16LE", u32_to_utf8 (decode_utf16 false (bytes.drop bom.size))))
    ∧ (bom.name = "UTF-16BE" → ConvertBufferToUtf8 bytes =
        ("UTF-16BE", u32_to_utf8 (decode_utf16 true (bytes.drop bom.size))))
    ∧ (bom.name = "UTF-32LE" → ConvertBufferToUtf8 bytes =
        ("UTF-32LE", u32_to_utf8 (decode_utf32 false (bytes.drop bom.size))))
    ∧ (bom.name = "UTF-32BE" → ConvertBufferToUtf8 bytes =
        ("UTF-32BE", u32_to_utf8 (decode_utf32 true (bytes.drop bom.size)))) := by
  rw [convertBuffer_of_bom bytes bom h]
  refine ⟨fun hn hv => ?_, fun hn hv => ?_, fun hn => ?_, fun hn => ?_,
    fun hn => ?_, fun hn => ?_⟩
  · rw [hn]; simp [convert_decode, hv]
  · rw [hn]; simp [convert_decode, hv]
  · rw [hn]; simp [convert_decode]
  · rw [hn]; simp [convert_decode]
  · rw [hn]; simp [convert_decode]
  · rw [hn]; simp [convert_decode]

/-- C2 amended witness: UTF-16LE BOM followed by the UTF-16LE bytes of
the two characters AB. -/
theorem claim2_witness :
    detect_bom [0xFF, 0xFE, 0x41, 0x00, 0x42, 0x00] = some ⟨"UTF-16LE", 2⟩
    ∧ (BomInfo.mk "UTF-16LE" 2).name = "UTF-16LE"
    ∧ ConvertBufferToUtf8 [0xFF, 0xFE, 0x41, 0x00, 0x42, 0x00] =
        ("UTF-16LE",
         u32_to_utf8 (decode_utf16 false ([0xFF, 0xFE, 0x41, 0x00, 0x42, 0x00].drop 2))) :=
  ⟨by decide, by decide,
   ((claim2_amended_bom_handling [0xFF, 0xFE, 0x41, 0x00, 0x42, 0x00]
     ⟨"UTF-16LE", 2⟩ (by decide)).2.2.1) (by decide)⟩

/-- C3 counterexample: UTF-16LE bytes of the unit sequence D800 0041.
The claim states the decoder emits a replacement for the invalid high
surrogate and then decodes 0x41 as its own unit; the code also consumes
the lookahead unit (the branch executes i += 2 and the loop increment adds
another 2), so 0x41 never appears in the output. -/
theorem claim3_counterexample :
    decode_utf16 false [0x00, 0xD8, 0x41, 0x00] = [0xFFFD]
    ∧ decode_utf16 false [0x00, 0xD8, 0x41, 0x00] ≠ [0xFFFD, 0x41] := by
  refine ⟨?_, ?_⟩ <;> decide

/-- C3 amended: a high-surrogate unit followed by a unit that is not a low
surrogate emits exactly one replacement scalar and consumes the lookahead
unit as well; a high surrogate with no following unit emits one
replacement scalar and decoding stops; a lone low surrogate emits exactly
one replacement scalar. -/
theorem claim3_amended_mismatched_surrogate (u v w : Nat) (rest : List Nat)
    (hu : 0xD800 ≤ u ∧ u ≤ 0xDBFF) (hv : ¬(0xDC00 ≤ v ∧ v ≤ 0xDFFF))
    (hw : 0xDC00 ≤ w ∧ w ≤ 0xDFFF) :
    decode_utf16_units (u :: v :: rest) = 0xFFFD :: decode_utf16_units rest
    ∧ decode_utf16_units [u] = [0xFFFD]
    ∧ decode_utf16_units (w :: rest) = 0xFFFD :: decode_utf16_units rest := by
  refine ⟨?_, ?_, ?_⟩
  · rw [decode_utf16_units.eq_3, if_pos hu, if_neg hv]
  · rw [decode_utf16_units.eq_2, if_pos hu]
  · cases rest with
    | nil =>
      rw [decode_utf16_units.eq_2,
        if_neg (show ¬(0xD800 ≤ w ∧ w ≤ 0xDBFF) by omega), if_pos hw]
    | cons v2 rest2 =>
      rw [decode_utf16_units.eq_3,
        if_neg (show ¬(0xD800 ≤ w ∧ w ≤ 0xDBFF) by omega), if_pos hw]

/-- C3 amended witness: concrete instance with u = D800, v = 0x41,
w = DC00 and empty tail. -/
theorem claim3_witness :
    (0xD800 ≤ 0xD800 ∧ 0xD800 ≤ 0xDBFF)
    ∧ ¬(0xDC00 ≤ 0x41 ∧ 0x41 ≤ 0xDFFF)
    ∧ (0xDC00 ≤ 0xDC00 ∧ 0xDC00 ≤ 0xDFFF)
    ∧ (decode_utf16_units [0xD800, 0x41] = 0xFFFD :: decode_utf16_units []
      ∧ decode_utf16_units [0xD800] = [0xFFFD]
      ∧ decode_utf16_units [0xDC00] = 0xFFFD :: decode_utf16_units []) :=
  ⟨by decide, by decide, by decide,
   claim3_amended_mismatched_surrogate 0xD800 0x41 0xDC00 []
     (by decide) (by decide) (by decide)⟩

/-- C4 counterexample: eight NUL bytes form a valid UTF-8 buffer without
a BOM, yet the zero-unit heuristic (tested before UTF-8 validation)
classifies them as UTF-32LE, and conversion is not the identity. -/
theorem claim4_counterexample :
    detect_bom [0, 0, 0, 0, 0, 0, 0, 0] = none
    ∧ is_valid_utf8 [0, 0, 0, 0, 0, 0, 0, 0] = true
    ∧ DetectEncodingFromBuffer [0, 0, 0, 0, 0, 0, 0, 0] ≠ "UTF-8"
    ∧ DetectEncodingFromBuffer [0, 0, 0, 0, 0, 0, 0, 0] = "UTF-32LE"
    ∧ (ConvertBufferToUtf8 [0, 0, 0, 0, 0, 0, 0, 0]).2 ≠ [0, 0, 0, 0, 0, 0, 0, 0] := by
  refine ⟨by decide, by decide, ?_, ?_, ?_⟩ <;> decide

/-- C4 amended: on a non-empty BOM-less buffer that is valid UTF-8 and on
which none of the four wide-encoding heuristics fires, detection returns
UTF-8 and conversion is the identity. -/
theorem claim4_amended_utf8_identity (bytes : List Nat) (hne : bytes ≠ [])
    (hbom : detect_bom bytes = none)
    (h32le : looks_like_utf32_le bytes = false)
    (h32be : looks_like_utf32_be bytes = false)
    (h16le : looks_like_utf16_le bytes = false)
    (h16be : looks_like_utf16_be bytes = false)
    (hv : is_valid_utf8 bytes = true) :
    DetectEncodingFromBuffer bytes = "UTF-8"
    ∧ ConvertBufferToUtf8 bytes = ("UTF-8", bytes) := by
  have hdet : DetectEncodingFromBuffer bytes = "UTF-8" := by
    unfold DetectEncodingFromBuffer
    rw [if_neg hne, hbom, h32le, h32be, h16le, h16be, hv]
    simp
  refine ⟨hdet, ?_⟩
  rw [convertBuffer_of_no_bom bytes hne hbom, hdet]
  unfold convert_decode
  rw [if_pos rfl, if_pos hv]

/-- Unfolding lemma for the validator at a non-empty buffer. -/
lemma is_valid_utf8_cons (c : Nat) (rest : List Nat) :
    is_valid_utf8 (c :: rest) =
      (if c ≤ 0x7F then is_valid_utf8 rest
       else if c &&& 0xE0 = 0xC0 then
         if c < 0xC2 then false
         else
           match rest with
           | c1 :: r => if c1 &&& 0xC0 = 0x80 then is_valid_utf8 r else false
           | _ => false
       else if c &&& 0xF0 = 0xE0 then
         match rest with
         | c1 :: c2 :: r =>
           if c1 &&& 0xC0 = 0x80 ∧ c2 &&& 0xC0 = 0x80 then
             if c = 0xE0 ∧ c1 < 0xA0 then false
             else if c = 0xED ∧ 0xA0 ≤ c1 then false
             else is_valid_utf8 r
           else false
         | _ => false
       else if c &&& 0xF8 = 0xF0 then
         if 0xF4 < c then false
         else
           match rest with
           | c1 :: c2 :: c3 :: r =>
             if c1 &&& 0xC0 = 0x80 ∧ c2 &&& 0xC0 = 0x80 ∧ c3 &&& 0xC0 = 0x80 then
               if c = 0xF0 ∧ c1 < 0x90 then false
               else if c = 0xF4 ∧ 0x90 ≤ c1 then false
               else is_valid_utf8 r
             else false
           | _ => false
       else false) := by
  cases rest with
  | nil => rfl
  | cons c1 r1 =>
    cases r1 with
    | nil => rfl
    | cons c2 r2 =>
      cases r2 with
      | nil => rfl
      | cons c3 r3 => rfl

set_option maxRecDepth 8192 in
/-- Byte-level characterisation of the lead and continuation bit masks,
established once over all 256 byte values. -/
lemma mask_facts : ∀ x : Fin 256,
    ((x.val &&& 0xE0 = 0xC0) ↔ (0xC0 ≤ x.val ∧ x.val ≤ 0xDF))
    ∧ ((x.val &&& 0xF0 = 0xE0) ↔ (0xE0 ≤ x.val ∧ x.val ≤ 0xEF))
    ∧ ((x.val &&& 0xF8 = 0xF0) ↔ (0xF0 ≤ x.val ∧ x.val ≤ 0xF7))
    ∧ ((x.val &&& 0xC0 = 0x80) ↔ (0x80 ≤ x.val ∧ x.val ≤ 0xBF)) := by
  decide

lemma mask_two_iff (b : Nat) (hb : b < 256) :
    (b &&& 0xE0 = 0xC0) ↔ (0xC0 ≤ b ∧ b ≤ 0xDF) := (mask_facts ⟨b, hb⟩).1

lemma mask_three_iff (b : Nat) (hb : b < 256) :
    (b &&& 0xF0 = 0xE0) ↔ (0xE0 ≤ b ∧ b ≤ 0xEF) := (mask_facts ⟨b, hb⟩).2.1

lemma mask_four_iff (b : Nat) (hb : b < 256) :
    (b &&& 0xF8 = 0xF0) ↔ (0xF0 ≤ b ∧ b ≤ 0xF7) := (mask_facts ⟨b, hb⟩).2.2.1

lemma mask_cont_iff (b : Nat) (hb : b < 256) :
    (b &&& 0xC0 = 0x80) ↔ (0x80 ≤ b ∧ b ≤ 0xBF) := (mask_facts ⟨b, hb⟩).2.2.2

/-- Continuation bytes satisfy the continuation mask test. -/
lemma cont_mask_of_isContByte {b : Nat} (hc : isContByte b) : b &&& 0xC0 = 0x80 :=
  (mask_cont_iff b (by have := hc.2; omega)).2 ⟨hc.1, hc.2⟩

/-- Soundness half of the validator claim: a buffer in the claimed UTF-8
grammar is accepted by the source validator. -/
lemma chunks_implies_valid {l : List Nat} (h : Utf8Chunks l) :
    is_valid_utf8 l = true := by
  induction h with
  | nil => rfl
  | one b r hb _ ih =>
    rw [is_valid_utf8_cons, if_pos hb]
    exact ih
  | two b c1 r h1 h2 hc _ ih =>
    rw [is_valid_utf8_cons, if_neg (show ¬(b ≤ 0x7F) by omega),
      if_pos ((mask_two_iff b (by omega)).2 ⟨by omega, h2⟩),
      if_neg (show ¬(b < 0xC2) by omega)]
    show (if c1 &&& 0xC0 = 0x80 then is_valid_utf8 r else false) = true
    rw [if_pos (cont_mask_of_isContByte hc)]
    exact ih
  | three b c1 c2 r h1 h2 hc1 hc2 he hd _ ih =>
    have hbne : ¬(b &&& 0xE0 = 0xC0) := by
      rw [mask_two_iff b (by omega)]
      omega
    rw [is_valid_utf8_cons, if_neg (show ¬(b ≤ 0x7F) by omega), if_neg hbne,
      if_pos ((mask_three_iff b (by omega)).2 ⟨h1, h2⟩)]
    show (if c1 &&& 0xC0 = 0x80 ∧ c2 &&& 0xC0 = 0x80 then
        if b = 0xE0 ∧ c1 < 0xA0 then false
        else if b = 0xED ∧ 0xA0 ≤ c1 then false
        else is_valid_utf8 r
      else false) = true
    rw [if_pos ⟨cont_mask_of_isContByte hc1, cont_mask_of_isContByte hc2⟩,
      if_neg (show ¬(b = 0xE0 ∧ c1 < 0xA0) from fun hx => by have := he hx.1; omega),
      if_neg (show ¬(b = 0xED ∧ 0xA0 ≤ c1) from fun hx => by have := hd hx.1; omega)]
    exact ih
  | four b c1 c2 c3 r h1 h2 hc1 hc2 hc3 he hd _ ih =>
    have hbne2 : ¬(b &&& 0xE0 = 0xC0) := by
      rw [mask_two_iff b (by omega)]
      omega
    have hbne3 : ¬(b &&& 0xF0 = 0xE0) := by
      rw [mask_three_iff b (by omega)]
      omega
    rw [is_valid_utf8_cons, if_neg (show ¬(b ≤ 0x7F) by omega), if_neg hbne2, if_neg hbne3,
      if_pos ((mask_four_iff b (by omega)).2 ⟨h1, by omega⟩),
      if_neg (show ¬(0xF4 < b) by omega)]
    show (if c1 &&& 0xC0 = 0x80 ∧ c2 &&& 0xC0 = 0x80 ∧ c3 &&& 0xC0 = 0x80 then
        if b = 0xF0 ∧ c1 < 0x90 then false
        else if b = 0xF4 ∧ 0x90 ≤ c1 then false
        else is_valid_utf8 r
      else false) = true
    rw [if_pos ⟨cont_mask_of_isContByte hc1, cont_mask_of_isContByte hc2,
        cont_mask_of_isContByte hc3⟩,
      if_neg (show ¬(b = 0xF0 ∧ c1 < 0x90) from fun hx => by have := he hx.1; omega),
      if_neg (show ¬(b = 0xF4 ∧ 0x90 ≤ c1) from fun hx => by have := hd hx.1; omega)]
    exact ih

/-- Completeness half of the validator claim: a byte buffer accepted by
the source validator is in the claimed UTF-8 grammar (by strong induction
on the buffer length). -/
lemma valid_implies_chunks : ∀ (n : Nat) (l : List Nat), l.length ≤ n →
    (∀ b ∈ l, b < 256) → is_valid_utf8 l = true → Utf8Chunks l := by
  intro n
  induction n with
  | zero =>
    intro l hl _ _
    have he : l = [] := List.length_eq_zero.1 (Nat.le_zero.1 hl)
    subst he
    exact .nil
  | succ n ih =>
    intro l hl hb hv
    cases l with
    | nil => exact .nil
    | cons c rest =>
      rw [is_valid_utf8_cons] at hv
      have hc : c < 256 := hb c (by simp)
      by_cases h1 : c ≤ 0x7F
      · rw [if_pos h1] at hv
        exact .one c rest h1
          (ih rest (by simp at hl; omega) (fun x hx => hb x (by simp [hx])) hv)
      · rw [if_neg h1] at hv
        by_cases h2 : c &&& 0xE0 = 0xC0
        · rw [if_pos h2] at hv
          have hr2 := (mask_two_iff c hc).1 h2
          by_cases h3 : c < 0xC2
          · rw [if_pos h3] at hv
            exact absurd hv (by simp)
          · rw [if_neg h3] at hv
            cases rest with
            | nil => exact absurd hv (by simp)
            | cons c1 r =>
              change (if c1 &&& 0xC0 = 0x80 then is_valid_utf8 r else false) = true at hv
              by_cases h4 : c1 &&& 0xC0 = 0x80
              · rw [if_pos h4] at hv
                have hcont := (mask_cont_iff c1 (hb c1 (by simp))).1 h4
                exact .two c c1 r (by omega) (by omega) ⟨hcont.1, hcont.2⟩
                  (ih r (by simp at hl; omega) (fun x hx => hb x (by simp [hx])) hv)
              · rw [if_neg h4] at hv
                exact absurd hv (by simp)
        · rw [if_neg h2] at hv
          by_cases h5 : c &&& 0xF0 = 0xE0
          · rw [if_pos h5] at hv
            have hr3 := (mask_three_iff c hc).1 h5
            cases rest with
            | nil => exact absurd hv (by simp)
            | cons c1 r1 =>
              cases r1 with
              | nil => exact absurd hv (by simp)
              | cons c2 r =>
                change (if c1 &&& 0xC0 = 0x80 ∧ c2 &&& 0xC0 = 0x80 then
                    if c = 0xE0 ∧ c1 < 0xA0 then false
                    else if c = 0xED ∧ 0xA0 ≤ c1 then false
                    else is_valid_utf8 r
                  else false) = true at hv
                by_cases h6 : c1 &&& 0xC0 = 0x80 ∧ c2 &&& 0xC0 = 0x80
                · rw [if_pos h6] at hv
                  by_cases h7 : c = 0xE0 ∧ c1 < 0xA0
                  · rw [if_pos h7] at hv
                    exact absurd hv (by simp)
                  · rw [if_neg h7] at hv
                    by_cases h8 : c = 0xED ∧ 0xA0 ≤ c1
                    · rw [if_pos h8] at hv
                      exact absurd hv (by simp)
                    · rw [if_neg h8] at hv
                      have hcont1 := (mask_cont_iff c1 (hb c1 (by simp))).1 h6.1
                      have hcont2 := (mask_cont_iff c2 (hb c2 (by simp))).1 h6.2
                      exact .three c c1 c2 r hr3.1 hr3.2
                        ⟨hcont1.1, hcont1.2⟩ ⟨hcont2.1, hcont2.2⟩
                        (fun he => by omega) (fun he => by omega)
                        (ih r (by simp at hl; omega)
                          (fun x hx => hb x (by simp [hx])) hv)
                · rw [if_neg h6] at hv
                  exact absurd hv (by simp)
          · rw [if_neg h5] at hv
            by_cases h9 : c &&& 0xF8 = 0xF0
            · rw [if_pos h9] at hv
              have hr4 := (mask_four_iff c hc).1 h9
              by_cases h10 : 0xF4 < c
              · rw [if_pos h10] at hv
                exact absurd hv (by simp)
              · rw [if_neg h10] at hv
                cases rest with
                | nil => exact absurd hv (by simp)
                | cons c1 r1 =>
                  cases r1 with
                  | nil => exact absurd hv (by simp)
                  | cons c2 r2 =>
                    cases r2 with
                    | nil => exact absurd hv (by simp)
                    | cons c3 r =>
                      change (if c1 &&& 0xC0 = 0x80 ∧ c2 &&& 0xC0 = 0x80 ∧
                          c3 &&& 0xC0 = 0x80 then
                          if c = 0xF0 ∧ c1 < 0x90 then false
                          else if c = 0xF4 ∧ 0x90 ≤ c1 then false
                          else is_valid_utf8 r
                        else false) = true at hv
                      by_cases h11 : c1 &&& 0xC0 = 0x80 ∧ c2 &&& 0xC0 = 0x80 ∧
                          c3 &&& 0xC0 = 0x80
                      · rw [if_pos h11] at hv
                        by_cases h12 : c = 0xF0 ∧ c1 < 0x90
                        · rw [if_pos h12] at hv
                          exact absurd hv (by simp)
                        · rw [if_neg h12] at hv
                          by_cases h13 : c = 0xF4 ∧ 0x90 ≤ c1
                          · rw [if_pos h13] at hv
                            exact absurd hv (by simp)
                          · rw [if_neg h13] at hv
                            have hcont1 := (mask_cont_iff c1 (hb c1 (by simp))).1 h11.1
                            have hcont2 := (mask_cont_iff c2 (hb c2 (by simp))).1 h11.2.1
                            have hcont3 := (mask_cont_iff c3 (hb c3 (by simp))).1 h11.2.2
                            exact .four c c1 c2 c3 r hr4.1 (by omega)
                              ⟨hcont1.1, hcont1.2⟩ ⟨hcont2.1, hcont2.2⟩
                              ⟨hcont3.1, hcont3.2⟩
                              (fun he => by omega) (fun he => by omega)
                              (ih r (by simp at hl; omega)
                                (fun x hx => hb x (by simp [hx])) hv)
                      · rw [if_neg h11] at hv
                        exact absurd hv (by simp)
            · rw [if_neg h9] at hv
              exact absurd hv (by simp)

/-- C7: the source validator accepts a byte buffer exactly when it parses
as a sequence of well-formed UTF-8 code points in the sense of the claim
(the Utf8Chunks grammar, with the overlong, surrogate and upper-range
restrictions on lead and second bytes). -/
theorem claim7_validator_iff_grammar (l : List Nat) (hb : ∀ b ∈ l, b < 256) :
    is_valid_utf8 l = true ↔ Utf8Chunks l :=
  ⟨valid_implies_chunks l.length l le_rfl hb, chunks_implies_valid⟩

/-- C7 witness: the two-byte buffer D0 9F (the UTF-8 encoding of the
Cyrillic capital letter Pe). -/
theorem claim7_witness :
    (∀ b ∈ [0xD0, 0x9F], b < 256)
    ∧ (is_valid_utf8 [0xD0, 0x9F] = true ↔ Utf8Chunks [0xD0, 0x9F]) :=
  ⟨by decide, claim7_validator_iff_grammar [0xD0, 0x9F] (by decide)⟩

set_option maxRecDepth 2048 in
/-- Disjoint-bit or equals addition, for the four lead-byte prefixes and
the continuation prefix, over all small tails. -/
lemma or_facts :
    (∀ y : Fin 64, 0x80 ||| y.val = 0x80 + y.val)
    ∧ (∀ y : Fin 32, 0xC0 ||| y.val = 0xC0 + y.val)
    ∧ (∀ y : Fin 16, 0xE0 ||| y.val = 0xE0 + y.val)
    ∧ (∀ y : Fin 8, 0xF0 ||| y.val = 0xF0 + y.val) := by
  refine ⟨?_, ?_, ?_, ?_⟩ <;> decide

lemma or_80 {y : Nat} (hy : y < 64) : 0x80 ||| y = 0x80 + y := or_facts.1 ⟨y, hy⟩

lemma or_C0 {y : Nat} (hy : y < 32) : 0xC0 ||| y = 0xC0 + y := or_facts.2.1 ⟨y, hy⟩

lemma or_E0 {y : Nat} (hy : y < 16) : 0xE0 ||| y = 0xE0 + y := or_facts.2.2.1 ⟨y, hy⟩

lemma or_F0 {y : Nat} (hy : y < 8) : 0xF0 ||| y = 0xF0 + y := or_facts.2.2.2 ⟨y, hy⟩

lemma shr6 (cp : Nat) : cp >>> 6 = cp / 64 := by
  rw [Nat.shiftRight_eq_div_pow]

lemma shr12 (cp : Nat) : cp >>> 12 = cp / 4096 := by
  rw [Nat.shiftRight_eq_div_pow]

lemma shr18 (cp : Nat) : cp >>> 18 = cp / 262144 := by
  rw [Nat.shiftRight_eq_div_pow]

lemma and63 (cp : Nat) : cp &&& 0x3F = cp % 64 := by
  have h := Nat.and_pow_two_sub_one_eq_mod cp 6
  norm_num at h
  exact h

/-- Every scalar value encodes to a well-formed UTF-8 chunk in front of
any grammatical tail. -/
lemma append_utf8_chunks {cp : Nat} (h : IsScalar cp) (r : List Nat)
    (hr : Utf8Chunks r) : Utf8Chunks (append_utf8 cp ++ r) := by
  obtain ⟨hle, hsur⟩ := h
  unfold append_utf8
  by_cases h1 : cp ≤ 0x7F
  · rw [if_pos h1]
    exact .one cp r h1 hr
  · rw [if_neg h1]
    by_cases h2 : cp ≤ 0x7FF
    · rw [if_pos h2, shr6, and63, or_C0 (by omega), or_80 (by omega)]
      exact .two _ _ r (by omega) (by omega) ⟨by omega, by omega⟩ hr
    · rw [if_neg h2]
      by_cases h3 : cp ≤ 0xFFFF
      · rw [if_pos h3, shr12, shr6, and63, and63, or_E0 (by omega),
          or_80 (by omega), or_80 (by omega)]
        exact .three _ _ _ r (by omega) (by omega)
          ⟨by omega, by omega⟩ ⟨by omega, by omega⟩
          (fun he => by omega) (fun he => by omega) hr
      · rw [if_neg h3, shr18, shr12, shr6, and63, and63, and63,
          or_F0 (by omega), or_80 (by omega), or_80 (by omega), or_80 (by omega)]
        exact .four _ _ _ _ r (by omega) (by omega)
          ⟨by omega, by omega⟩ ⟨by omega, by omega⟩ ⟨by omega, by omega⟩
          (fun he => by omega) (fun he => by omega) hr

/-- The encoder output of a sequence of scalar values is grammatical. -/
lemma u32_to_utf8_chunks {u : List Nat} (h : ∀ cp ∈ u, IsScalar cp) :
    Utf8Chunks (u32_to_utf8 u) := by
  induction u with
  | nil => exact .nil
  | cons cp u ih =>
    have he : u32_to_utf8 (cp :: u) = append_utf8 cp ++ u32_to_utf8 u := by
      simp [u32_to_utf8]
    rw [he]
    exact append_utf8_chunks (h cp (by simp)) _ (ih fun x hx => h x (by simp [hx]))

set_option maxRecDepth 8192 in
/-- Per-byte output of the single-byte decoder is a scalar value, checked
over all byte values and all four tables. -/
lemma decode_single_byte_one_scalar (t : SingleByte) :
    ∀ b : Fin 256, IsScalar (decode_single_byte_one t b.val) := by
  cases t <;> decide

/-- Every scalar emitted by the single-byte decoder is a scalar value. -/
lemma single_byte_scalar (l : List Nat) (t : SingleByte) (hl : ∀ b ∈ l, b < 256) :
    ∀ cp ∈ decode_single_byte l t, IsScalar cp := by
  intro cp hcp
  obtain ⟨b, hb, rfl⟩ := List.mem_map.1 hcp
  exact decode_single_byte_one_scalar t ⟨b, hl b hb⟩

/-- Every 16-bit unit composed from two bytes is below 0x10000. -/
lemma unit_lt {a b : Nat} (ha : a < 256) (hb : b < 256) : (a <<< 8) ||| b < 0x10000 := by
  have h1 : a <<< 8 < 2 ^ 16 := by
    rw [Nat.shiftLeft_eq]
    norm_num
    omega
  have h2 : b < 2 ^ 16 := by
    norm_num
    omega
  have h3 := Nat.or_lt_two_pow h1 h2
  norm_num at h3
  exact h3

/-- All units produced by utf16Units from a byte buffer are below
0x10000. -/
lemma utf16Units_lt (be : Bool) : ∀ (l : List Nat), (∀ b ∈ l, b < 256) →
    ∀ u ∈ utf16Units be l, u < 0x10000
  | [] => by simp [utf16Units, chunks2]
  | [a] => by simp [utf16Units, chunks2]
  | a :: b :: rest => by
    intro hl u hu
    simp only [utf16Units, chunks2, List.map_cons, List.mem_cons] at hu
    rcases hu with rfl | hu
    · have ha : a < 256 := hl a (by simp)
      have hb : b < 256 := hl b (by simp)
      cases be <;> simp only [if_true, if_false, Bool.false_eq_true] <;>
        first
        | exact unit_lt ha hb
        | exact unit_lt hb ha
    · exact utf16Units_lt be rest (fun x hx => hl x (by simp [hx])) u hu

/-- Every scalar emitted by the UTF-16 unit decoder is a scalar value,
provided all units are 16-bit. -/
lemma decode_utf16_units_scalar : ∀ (us : List Nat), (∀ u ∈ us, u < 0x10000) →
    ∀ cp ∈ decode_utf16_units us, IsScalar cp
  | [] => by simp [decode_utf16_units]
  | [u] => by
    intro h cp hcp
    rw [decode_utf16_units.eq_2] at hcp
    have hu : u < 0x10000 := h u (by simp)
    split_ifs at hcp with h1 h2 <;>
      simp only [decode_utf16_units, List.mem_singleton, List.mem_cons,
        List.not_mem_nil, or_false] at hcp
    · subst hcp
      decide
    · subst hcp
      decide
    · subst hcp
      exact ⟨by omega, by omega⟩
  | u :: v :: rest => by
    intro h cp hcp
    have hu : u < 0x10000 := h u (by simp)
    have hv16 : v < 0x10000 := h v (by simp)
    rw [decode_utf16_units.eq_3] at hcp
    split_ifs at hcp with h1 h2 h3 <;> simp only [List.mem_cons] at hcp
    · rcases hcp with rfl | hcp
      · have hx : (u - 0xD800) <<< 10 < 2 ^ 20 := by
          rw [Nat.shiftLeft_eq]
          norm_num
          omega
        have hy : v - 0xDC00 < 2 ^ 20 := by
          norm_num
          omega
        have hor := Nat.or_lt_two_pow hx hy
        norm_num at hor
        exact ⟨by omega, by omega⟩
      · exact decode_utf16_units_scalar rest
          (fun x hx => h x (by simp [hx])) cp hcp
    · rcases hcp with rfl | hcp
      · decide
      · exact decode_utf16_units_scalar rest
          (fun x hx => h x (by simp [hx])) cp hcp
    · rcases hcp with rfl | hcp
      · decide
      · exact decode_utf16_units_scalar (v :: rest)
          (fun x hx => h x (by simp [hx])) cp hcp
    · rcases hcp with rfl | hcp
      · exact ⟨by omega, by omega⟩
      · exact decode_utf16_units_scalar (v :: rest)
          (fun x hx => h x (by simp [hx])) cp hcp

/-- Range clamping in the UTF-32 decoder always yields a scalar value. -/
lemma utf32_clamp_scalar (x : Nat) :
    IsScalar (if 0x10FFFF < x ∨ (0xD800 ≤ x ∧ x ≤ 0xDFFF) then 0xFFFD else x) := by
  split_ifs with hP
  · decide
  · exact ⟨by omega, by omega⟩

/-- Every scalar emitted by the UTF-32 decoder is a scalar value. -/
lemma decode_utf32_scalar (be : Bool) (l : List Nat) :
    ∀ cp ∈ decode_utf32 be l, IsScalar cp := by
  intro cp hcp
  obtain ⟨q, hq, hfeq⟩ := List.mem_map.1 hcp
  subst hfeq
  exact utf32_clamp_scalar _

/-- The decode dispatch always produces output accepted by the source
validator. -/
lemma convert_decode_valid (encname : String) (p : List Nat)
    (hp : ∀ b ∈ p, b < 256) :
    is_valid_utf8 (convert_decode encname p).2 = true := by
  unfold convert_decode
  split_ifs with h1 h2 h3 h4 h5 h6 h7 h8 h9 h10 <;>
    first
    | assumption
    | exact chunks_implies_valid
        (u32_to_utf8_chunks (single_byte_scalar p _ hp))
    | exact chunks_implies_valid
        (u32_to_utf8_chunks (decode_utf16_units_scalar _ (utf16Units_lt _ p hp)))
    | exact chunks_implies_valid
        (u32_to_utf8_chunks (decode_utf32_scalar _ p))

/-- C10: for every byte buffer, the conversion output is itself accepted
by the source UTF-8 validator. -/
theorem claim10_convert_output_valid (bytes : List Nat)
    (hb : ∀ b ∈ bytes, b < 256) :
    is_valid_utf8 (ConvertBufferToUtf8 bytes).2 = true := by
  by_cases hne : bytes = []
  · subst hne
    rfl
  · cases hbom : detect_bom bytes with
    | some bom =>
      rw [convertBuffer_of_bom bytes bom hbom]
      exact convert_decode_valid bom.name _
        (fun x hx => hb x (List.mem_of_mem_drop hx))
    | none =>
      rw [convertBuffer_of_no_bom bytes hne hbom]
      exact convert_decode_valid _ bytes hb

/-- C10 witness: the WINDOWS-1251 bytes CF F0 (invalid as UTF-8) convert
to output that passes the validator. -/
theorem claim10_witness :
    (∀ b ∈ [0xCF, 0xF0], b < 256)
    ∧ is_valid_utf8 (ConvertBufferToUtf8 [0xCF, 0xF0]).2 = true :=
  ⟨by decide, claim10_convert_output_valid [0xCF, 0xF0] (by decide)⟩

/-- C4 amended witness: the single byte 0x41. -/
theorem claim4_witness :
    ([0x41] ≠ ([] : List Nat))
    ∧ detect_bom [0x41] = none
    ∧ is_valid_utf8 [0x41] = true
    ∧ (DetectEncodingFromBuffer [0x41] = "UTF-8"
      ∧ ConvertBufferToUtf8 [0x41] = ("UTF-8", [0x41])) :=
  ⟨by decide, by decide, by decide,
   claim4_amended_utf8_identity [0x41] (by decide) (by decide) (by decide)
     (by decide) (by decide) (by decide) (by decide)⟩

end Enc
